import Mathlib

/-!
Verification development for the NERON Discord bot repository
(cogs `events` and `birthdays`).

The Python sources are shallowly embedded below:
* Python `str` values manipulated by the code (reminder user lists,
  birthday date strings) are modelled as `List Char`;
* the per-guild SQLite tables are modelled as ordered row lists keyed by
  guild id; `SELECT *` returns rows in insertion order, `SELECT ... WHERE
  id = ?` returns the first matching row;
* the cooperative scheduler is modelled by executing one tick of each
  `tasks.loop` body as a pure state transition; the external Discord
  client (which guilds resolve, whether a channel exists and whether
  `channel.send` succeeds or raises) is an explicit environment.
-/

namespace Neron

/-! ### Python string primitives

`natToStr` models Python `str(n)` for a natural number, `strToNat`
models Python `int(s)` on a non-empty decimal digit string, `splitOnChar`
models `s.split(sep)` for a one-character separator and `joinSep` models
`sep.join(parts)`. -/

/-- Decimal digit character, as produced by Python `str`. -/
def digitChar (d : Nat) : Char := Char.ofNat (48 + d)

/-- Fuel-driven decimal rendering; the fuel is only there to make the
recursion structural so that concrete evaluation reduces in the kernel. -/
def natToStrAux : Nat → Nat → List Char
  | 0, _ => []
  | fuel + 1, n =>
    if n < 10 then [digitChar n]
    else natToStrAux fuel (n / 10) ++ [digitChar (n % 10)]

/-- Python `str(n)` for a natural number `n`. -/
def natToStr (n : Nat) : List Char := natToStrAux (n + 1) n

/-- Python `int(s)` on a decimal digit string. -/
def strToNat (s : List Char) : Nat :=
  s.foldl (fun a c => a * 10 + (c.toNat - 48)) 0

/-- Helper for `splitOnChar`: prepend a character to the first chunk. -/
def splitConsAux (c : Char) : List (List Char) → List (List Char)
  | [] => [[c]]
  | s :: ss => (c :: s) :: ss

/-- Python `s.split(sep)` for a single-character separator: note that
splitting the empty string yields `[""]`, as in Python. -/
def splitOnChar (sep : Char) : List Char → List (List Char)
  | [] => [[]]
  | c :: rest =>
    if c = sep then [] :: splitOnChar sep rest
    else splitConsAux c (splitOnChar sep rest)

/-- Python `sep.join(parts)` for a single-character separator. -/
def joinSep (sep : Char) : List (List Char) → List Char
  | [] => []
  | [p] => p
  | p :: q :: ps => p ++ sep :: joinSep sep (q :: ps)

/-- The serialised reminder user list `','.join(str(u) for u in l)`,
exactly as written by `set_reminder` and the user-list update helpers. -/
def natsJoin (l : List Nat) : List Char := joinSep ',' (l.map natToStr)

theorem natToStrAux_fuel_inv :
    ∀ f₁ f₂ n, n < f₁ → n < f₂ → natToStrAux f₁ n = natToStrAux f₂ n := by
  intro f₁
  induction f₁ with
  | zero => intro f₂ n h; omega
  | succ f ih =>
    intro f₂ n h₁ h₂
    cases f₂ with
    | zero => omega
    | succ f' =>
      simp only [natToStrAux]
      by_cases hlt : n < 10
      · simp [hlt]
      · have hn : 0 < n := by omega
        have hdiv : n / 10 < n := Nat.div_lt_self hn (by omega)
        simp only [if_neg hlt]
        rw [ih f' (n / 10) (by omega) (by omega)]

theorem natToStr_eq (n : Nat) :
    natToStr n =
      if n < 10 then [digitChar n]
      else natToStr (n / 10) ++ [digitChar (n % 10)] := by
  by_cases hlt : n < 10
  · simp [natToStr, natToStrAux, hlt]
  · have hn : 0 < n := by omega
    have hdiv : n / 10 < n := Nat.div_lt_self hn (by omega)
    rw [if_neg hlt]
    show natToStrAux (n + 1) n = natToStrAux (n / 10 + 1) (n / 10) ++ [digitChar (n % 10)]
    have h1 : natToStrAux (n + 1) n =
        if n < 10 then [digitChar n]
        else natToStrAux n (n / 10) ++ [digitChar (n % 10)] := rfl
    rw [h1, if_neg hlt,
      natToStrAux_fuel_inv n (n / 10 + 1) (n / 10) (by omega) (by omega)]

theorem natToStr_ne_nil (n : Nat) : natToStr n ≠ [] := by
  rw [natToStr_eq]
  by_cases hlt : n < 10 <;> simp [hlt]

theorem digitChar_toNat {d : Nat} (h : d < 10) : (digitChar d).toNat = 48 + d := by
  interval_cases d <;> decide

theorem mem_natToStr_digit (n : Nat) :
    ∀ c ∈ natToStr n, 48 ≤ c.toNat ∧ c.toNat ≤ 57 := by
  induction n using Nat.strong_induction_on with
  | _ n ih =>
    rw [natToStr_eq]
    by_cases hlt : n < 10
    · simp only [if_pos hlt, List.mem_singleton]
      intro c hc
      subst hc
      rw [digitChar_toNat hlt]
      omega
    · have hn : 0 < n := by omega
      have hdiv : n / 10 < n := Nat.div_lt_self hn (by omega)
      simp only [if_neg hlt, List.mem_append, List.mem_singleton]
      intro c hc
      rcases hc with hc | hc
      · exact ih (n / 10) hdiv c hc
      · subst hc
        rw [digitChar_toNat (Nat.mod_lt n (by omega))]
        have := Nat.mod_lt n (show 0 < 10 by omega)
        omega

theorem comma_not_mem_natToStr (n : Nat) : ',' ∉ natToStr n := by
  intro h
  have := mem_natToStr_digit n ',' h
  exact absurd this (by decide)

theorem strToNat_append_digit (s : List Char) (c : Char) :
    strToNat (s ++ [c]) = strToNat s * 10 + (c.toNat - 48) := by
  simp [strToNat, List.foldl_append]

theorem strToNat_natToStr (n : Nat) : strToNat (natToStr n) = n := by
  induction n using Nat.strong_induction_on with
  | _ n ih =>
    rw [natToStr_eq]
    by_cases hlt : n < 10
    · simp only [if_pos hlt]
      show strToNat ([] ++ [digitChar n]) = n
      rw [strToNat_append_digit, digitChar_toNat hlt]
      simp [strToNat]
    · have hn : 0 < n := by omega
      have hdiv : n / 10 < n := Nat.div_lt_self hn (by omega)
      simp only [if_neg hlt]
      rw [strToNat_append_digit, ih (n / 10) hdiv,
        digitChar_toNat (Nat.mod_lt n (by omega))]
      omega

theorem natToStr_injective : Function.Injective natToStr := by
  intro a b h
  have := strToNat_natToStr a
  rw [h, strToNat_natToStr] at this
  omega

theorem splitConsAux_ne_nil (c : Char) (l : List (List Char)) :
    splitConsAux c l ≠ [] := by
  cases l <;> simp [splitConsAux]

theorem splitOnChar_ne_nil (sep : Char) (s : List Char) :
    splitOnChar sep s ≠ [] := by
  induction s with
  | nil => simp [splitOnChar]
  | cons c rest ih =>
    simp only [splitOnChar]
    by_cases hc : c = sep
    · simp [hc]
    · simp only [if_neg hc]
      exact splitConsAux_ne_nil c _

theorem splitOnChar_no_sep (sep : Char) (s : List Char) (h : sep ∉ s) :
    splitOnChar sep s = [s] := by
  induction s with
  | nil => simp [splitOnChar]
  | cons c rest ih =>
    simp only [List.mem_cons, not_or] at h
    have hc : ¬ c = sep := fun hcc => h.1 hcc.symm
    simp only [splitOnChar, if_neg hc, ih h.2]
    rfl

theorem splitOnChar_append_sep (sep : Char) :
    ∀ (p rest : List Char), sep ∉ p →
      splitOnChar sep (p ++ sep :: rest) = p :: splitOnChar sep rest
  | [], rest, _ => by simp [splitOnChar]
  | c :: q, rest, h => by
    have h1 : ¬ sep = c ∧ sep ∉ q := by simpa [List.mem_cons] using h
    have hc : ¬ c = sep := fun hcc => h1.1 hcc.symm
    show (if c = sep then [] :: splitOnChar sep (q ++ sep :: rest)
          else splitConsAux c (splitOnChar sep (q ++ sep :: rest)))
        = (c :: q) :: splitOnChar sep rest
    rw [if_neg hc, splitOnChar_append_sep sep q rest h1.2]
    rfl

theorem splitOnChar_joinSep (sep : Char) (parts : List (List Char))
    (hne : parts ≠ []) (hsep : ∀ p ∈ parts, sep ∉ p) :
    splitOnChar sep (joinSep sep parts) = parts := by
  induction parts with
  | nil => exact absurd rfl hne
  | cons p ps ih =>
    cases ps with
    | nil =>
      simp only [joinSep]
      exact splitOnChar_no_sep sep p (hsep p (by simp))
    | cons q qs =>
      simp only [joinSep]
      rw [splitOnChar_append_sep sep p _ (hsep p (by simp))]
      rw [ih (by simp) (fun x hx => hsep x (by simp [hx]))]

theorem joinSep_append_single (sep : Char) :
    ∀ (parts : List (List Char)) (q : List Char), parts ≠ [] →
      joinSep sep (parts ++ [q]) = joinSep sep parts ++ sep :: q
  | [], _, h => absurd rfl h
  | [p], q, _ => rfl
  | p :: r :: rs, q, _ => by
    have ih := joinSep_append_single sep (r :: rs) q (by simp)
    show p ++ sep :: joinSep sep ((r :: rs) ++ [q])
        = (p ++ sep :: joinSep sep (r :: rs)) ++ sep :: q
    rw [ih]
    simp

theorem natsJoin_nil : natsJoin [] = [] := rfl

theorem natsJoin_singleton (u : Nat) : natsJoin [u] = natToStr u := rfl

theorem natsJoin_ne_nil (l : List Nat) (h : l ≠ []) : natsJoin l ≠ [] := by
  cases l with
  | nil => exact absurd rfl h
  | cons p ps =>
    cases ps with
    | nil =>
      simpa [natsJoin, joinSep] using natToStr_ne_nil p
    | cons q qs =>
      simp only [natsJoin, List.map_cons, joinSep, ne_eq, List.append_eq_nil]
      intro hc
      exact natToStr_ne_nil p hc.1

theorem splitOnChar_natsJoin (l : List Nat) (h : l ≠ []) :
    splitOnChar ',' (natsJoin l) = l.map natToStr := by
  apply splitOnChar_joinSep
  · simpa using h
  · intro p hp
    simp only [List.mem_map] at hp
    obtain ⟨n, _, rfl⟩ := hp
    exact comma_not_mem_natToStr n

theorem natsJoin_append_single (l : List Nat) (u : Nat) (h : l ≠ []) :
    natsJoin (l ++ [u]) = natsJoin l ++ ',' :: natToStr u := by
  simp only [natsJoin, List.map_append, List.map_cons, List.map_nil]
  exact joinSep_append_single ',' (l.map natToStr) (natToStr u) (by simpa using h)

/-! ### Events cog: reminder store, cache and scanner

Embedding of `src/cogs/events/events.py`.  A row of the per-guild
`reminders` table is a `Reminder`; the per-guild SQLite databases are an
ordered association list `store` from guild id to row list, and the
in-memory mirror `__reminders_cache` is the association list `cache`
(Python dicts preserve insertion order).  The Discord client is the
explicit environment `Env`: `guilds` lists the ids for which
`bot.get_guild` succeeds, `channelExists gid cid` says whether
`guild.get_channel(cid)` returns a text channel or thread, and
`sendOk gid cid` says whether `channel.send` returns normally (`false`
means it raises, e.g. `discord.Forbidden` on a permission denial).
Member lists and the `SilentEventMentions` setting only shape the text of
the outgoing message, never the control flow or the stored state, so they
do not appear in the model. -/

/-- One row of the per-guild `reminders` table. -/
structure Reminder where
  id : Nat
  content : String
  timestamp : Int
  channel_id : Nat
  author_id : Nat
  userlist : List Char
deriving DecidableEq, Repr

/-- State owned by the `Events` cog: the persistent store and the
in-memory reminders cache, both keyed by guild id. -/
structure EventsState where
  store : List (Nat × List Reminder)
  cache : List (Nat × List Reminder)
deriving DecidableEq, Repr

/-- Row list held under key `g`; the empty list when `g` is absent
(a freshly created SQLite table, or a dict key never written). -/
def rowsFor (l : List (Nat × List Reminder)) (g : Nat) : List Reminder :=
  ((l.find? (fun p => p.1 == g)).map Prod.snd).getD []

/-- Write the row list under key `g`, replacing an existing entry or
appending a new one (Python dict assignment / per-guild database file). -/
def assocSet (l : List (Nat × List Reminder)) (g : Nat) (v : List Reminder) :
    List (Nat × List Reminder) :=
  match l with
  | [] => [(g, v)]
  | (k, w) :: rest => if k = g then (g, v) :: rest else (k, w) :: assocSet rest g v

/-- `get_reminders`: `SELECT * FROM reminders` for one guild. -/
def get_reminders (st : EventsState) (gid : Nat) : List Reminder :=
  rowsFor st.store gid

/-- `get_reminder`: `SELECT * FROM reminders WHERE id = ?`, first match. -/
def get_reminder (st : EventsState) (gid rid : Nat) : Option Reminder :=
  (rowsFor st.store gid).find? (fun r => r.id == rid)

/-- The cached list for one guild (`get_reminders_cache`, minus the
side effect of inserting an empty entry, which `rowsFor` absorbs). -/
def cacheFor (st : EventsState) (gid : Nat) : List Reminder :=
  rowsFor st.cache gid

/-- `update_reminders_cache`: replace the cached list for the guild with
the current store contents. -/
def update_reminders_cache (st : EventsState) (gid : Nat) : EventsState :=
  { st with cache := assocSet st.cache gid (get_reminders st gid) }

/-- `set_reminder`: insert a new row (the `AUTOINCREMENT` id is one more
than the largest id present; the claims depend only on the row content,
not on the exact fresh id) and refresh the cache. -/
def set_reminder (st : EventsState) (gid : Nat) (content : String)
    (timestamp : Int) (channel_id author_id : Nat) (userlist : List Nat) :
    EventsState :=
  let rows := rowsFor st.store gid
  let newId := (rows.map Reminder.id).foldr max 0 + 1
  let row : Reminder :=
    ⟨newId, content, timestamp, channel_id, author_id, natsJoin userlist⟩
  let st1 := { st with store := assocSet st.store gid (rows ++ [row]) }
  update_reminders_cache st1 gid

/-- `remove_reminder`: `DELETE FROM reminders WHERE id = ?` then refresh
the cache. -/
def remove_reminder (st : EventsState) (gid rid : Nat) : EventsState :=
  let st1 :=
    { st with
      store := assocSet st.store gid
        ((rowsFor st.store gid).filter (fun r => !(r.id == rid))) }
  update_reminders_cache st1 gid

/-- `UPDATE reminders SET userlist = ? WHERE id = ?` on a row list. -/
def updateUserlist (rows : List Reminder) (rid : Nat) (ul : List Char) :
    List Reminder :=
  rows.map (fun r => if r.id == rid then { r with userlist := ul } else r)

/-- Shared tail of `add_reminder_user` and `remove_reminder_user`: run the
`UPDATE` statement and refresh the cache. -/
def setUserlist (st : EventsState) (gid rid : Nat) (ul : List Char) :
    EventsState :=
  let st1 :=
    { st with
      store := assocSet st.store gid
        (updateUserlist (rowsFor st.store gid) rid ul) }
  update_reminders_cache st1 gid

/-- `add_reminder_user`: subscribe a user to a reminder; returns `true`
when the user was added and `false` when the reminder is missing or the
user is already on the list. -/
def add_reminder_user (st : EventsState) (gid rid uid : Nat) :
    EventsState × Bool :=
  match get_reminder st gid rid with
  | none => (st, false)
  | some r =>
    if r.userlist = [] then
      (setUserlist st gid rid (natToStr uid), true)
    else if natToStr uid ∉ splitOnChar ',' r.userlist then
      (setUserlist st gid rid (r.userlist ++ ',' :: natToStr uid), true)
    else (st, false)

/-- `remove_reminder_user`: unsubscribe a user from a reminder; a no-op
when the reminder is missing, the list is empty or the user is absent. -/
def remove_reminder_user (st : EventsState) (gid rid uid : Nat) :
    EventsState :=
  match get_reminder st gid rid with
  | none => st
  | some r =>
    if r.userlist = [] then st
    else
      let ulist :=
        ((splitOnChar ',' r.userlist).filter (fun s => !s.isEmpty)).map strToNat
      if uid ∈ ulist then
        setUserlist st gid rid (joinSep ',' ((ulist.erase uid).map natToStr))
      else st

/-- The external Discord client, as seen by the `Events` cog. -/
structure Env where
  guilds : List Nat
  channelExists : Nat → Nat → Bool
  sendOk : Nat → Nat → Bool

/-- `handle_reminder`: look the reminder up in the store, resolve its
channel, build the embed (always succeeds once the reminder exists), send
the notification and delete the reminder.  There is no `try`/`except`
around `channel.send`: when the send raises, the exception escapes to the
caller before `remove_reminder` runs, which the model records as
`some (gid, rid)` in the second component, with the state unchanged. -/
def handle_reminder (env : Env) (gid rid : Nat) (st : EventsState) :
    EventsState × Option (Nat × Nat) :=
  match get_reminder st gid rid with
  | none => (st, none)
  | some r =>
    if env.channelExists gid r.channel_id then
      if env.sendOk gid r.channel_id then
        (remove_reminder st gid rid, none)
      else (st, some (gid, rid))
    else (st, none)

/-- Inner loop of `reminders_loop` over one snapshot row list: each row
due at `now` is passed to `handle_reminder`; an uncaught exception aborts
the iteration.  Returns the state, the list of dispatcher invocations and
the escaped exception, if any. -/
def runItems (env : Env) (now : Int) (gid : Nat) :
    List Reminder → EventsState →
      EventsState × List (Nat × Nat) × Option (Nat × Nat)
  | [], st => (st, [], none)
  | r :: rs, st =>
    if r.timestamp ≤ now then
      match handle_reminder env gid r.id st with
      | (st1, none) =>
        let rest := runItems env now gid rs st1
        (rest.1, (gid, r.id) :: rest.2.1, rest.2.2)
      | (st1, some e) => (st1, [(gid, r.id)], some e)
    else runItems env now gid rs st

/-- Outer loop of `reminders_loop` over the snapshot of the cache dict:
guilds `bot.get_guild` cannot resolve are skipped; an uncaught exception
aborts the whole tick. -/
def runGuilds (env : Env) (now : Int) :
    List (Nat × List Reminder) → EventsState →
      EventsState × List (Nat × Nat) × Option (Nat × Nat)
  | [], st => (st, [], none)
  | (gid, rs) :: rest, st =>
    if env.guilds.contains gid then
      match runItems env now gid rs st with
      | (st1, log1, none) =>
        let r2 := runGuilds env now rest st1
        (r2.1, log1 ++ r2.2.1, r2.2.2)
      | (st1, log1, some e) => (st1, log1, some e)
    else runGuilds env now rest st

/-- One tick of `reminders_loop`: iterate over a snapshot of the cache
(`self.__reminders_cache.copy()`); the wall clock is read per comparison
in the source, but only moves forward within a tick, so a single `now`
is used.  Second component: dispatcher invocations; third component: the
exception that escaped the tick, if any. -/
def remindersTick (env : Env) (now : Int) (st : EventsState) :
    EventsState × List (Nat × Nat) × Option (Nat × Nat) :=
  runGuilds env now st.cache st

/-- Outcome reported by the `/remindme delete` command. -/
inductive DelResp
  | notFound
  | noPerm
  | cancelled
  | deleted
deriving DecidableEq, Repr

/-- `delete_reminder_command`: the body of `/remindme delete` after the
guild-context guard, for an invoking member with id `userId` and
`manage_guild` permission `managePerm`; `confirm` is the answer to the
confirmation dialog. -/
def delete_reminder_command (st : EventsState) (gid userId : Nat)
    (managePerm : Bool) (rid : Nat) (confirm : Bool) :
    DelResp × EventsState :=
  match get_reminder st gid rid with
  | none => (DelResp.notFound, st)
  | some r =>
    if ¬ userId = r.author_id ∨ managePerm = false then (DelResp.noPerm, st)
    else if confirm = false then (DelResp.cancelled, st)
    else (DelResp.deleted, remove_reminder st gid rid)

/-! ### Birthdays cog

Embedding of `src/cogs/birthdays/birthdays.py`.  The global `birthdays`
table is a row list `(user_id, birthday, guilds_hidden)`.  For the
scanner, each guild is summarised by the results of the per-guild helper
calls the loop body makes (`get_birthdays_today`, `get_birthday_channel`,
`is_notification_hour`, `is_role_attribution_hour`, `get_birthday_role`
and the member/role views), since those results depend only on external
Discord state and settings that the loop body never writes. -/

/-- Environment snapshot of one guild during a `birthdays_loop` tick. -/
structure BGuild where
  id : Nat
  birthdaysToday : List Nat
  channelOk : Bool
  notificationHour : Bool
  roleHour : Bool
  roleSet : Bool
  members : List Nat
  membersWithRole : List Nat
deriving DecidableEq, Repr

/-- Observable side effects of one `birthdays_loop` tick. -/
inductive BEvent
  | send (guild : Nat)
  | roleRemove (guild member : Nat)
  | roleAdd (guild member : Nat)
deriving DecidableEq, Repr

/-- Birthday-role bookkeeping for one guild (the two member loops at the
end of the `birthdays_loop` body). -/
def roleEvents (g : BGuild) : List BEvent :=
  if g.roleSet then
    (g.members.filter
        (fun m => !g.birthdaysToday.contains m && g.membersWithRole.contains m)).map
      (fun m => BEvent.roleRemove g.id m)
    ++ (g.birthdaysToday.filter (fun m => !g.membersWithRole.contains m)).map
      (fun m => BEvent.roleAdd g.id m)
  else []

/-- Per-guild body of `birthdays_loop`: guilds with no birthday today are
skipped; when a notification channel is configured but it is not the
notification hour, `continue` also skips the role bookkeeping. -/
def birthdayGuildEvents (g : BGuild) : List BEvent :=
  if g.birthdaysToday.isEmpty then []
  else if g.channelOk then
    if !g.notificationHour then []
    else BEvent.send g.id :: (if g.roleHour then roleEvents g else [])
  else if g.roleHour then roleEvents g else []

/-- One tick of `birthdays_loop`: `bucket` is
`datetime.now().strftime('%d/%m:%H')` (read once per tick; within one
tick both reads of the clock fall in the same bucket) and `last` is
`self.last_check`.  The bucket is stored in `last_check` before any guild
is processed; a tick whose bucket equals `last_check` does nothing. -/
def birthdaysTick (guilds : List BGuild) (bucket last : List Char) :
    List Char × List BEvent :=
  if last = bucket then (last, [])
  else (bucket, guilds.foldr (fun g acc => birthdayGuildEvents g ++ acc) [])

/-! #### Date parsing for `/bday set`

`strptime_ddmm` models CPython `datetime.strptime(s, '%d/%m')`: the
`_strptime` regex for `%d` is `3[01]|[12]\d|0[1-9]|[1-9]` and for `%m` is
`1[0-2]|0[1-9]|[1-9]`, the whole string must be consumed, and the
resulting `datetime(1900, month, day)` constructor validates the day
against the month length of the (non-leap) year 1900.  Any failure raises
`ValueError`, the one exception type `/bday set` catches; on a `str`
argument `strptime` raises nothing else. -/

/-- Is every character a decimal digit. -/
def allDigits (s : List Char) : Bool :=
  s.all (fun c => 48 ≤ c.toNat && c.toNat ≤ 57)

/-- The `%d` field regex: one digit `1-9`, or two digits with value
`01`..`31`. -/
def dayField (s : List Char) : Bool :=
  allDigits s &&
    ((s.length == 1 && decide (1 ≤ strToNat s) && decide (strToNat s ≤ 9)) ||
     (s.length == 2 && decide (1 ≤ strToNat s) && decide (strToNat s ≤ 31)))

/-- The `%m` field regex: one digit `1-9`, or two digits with value
`01`..`12`. -/
def monthField (s : List Char) : Bool :=
  allDigits s &&
    ((s.length == 1 && decide (1 ≤ strToNat s) && decide (strToNat s ≤ 9)) ||
     (s.length == 2 && decide (1 ≤ strToNat s) && decide (strToNat s ≤ 12)))

/-- Days in each month of the year 1900 (not a leap year). -/
def monthDays (m : Nat) : Nat :=
  [31, 28, 31, 30, 31, 30, 31, 31, 30, 31, 30, 31].getD (m - 1) 0

/-- CPython `datetime.strptime(s, '%d/%m')`, returning `some (day, month)`
on success and `none` where the original raises `ValueError`. -/
def strptime_ddmm (s : List Char) : Option (Nat × Nat) :=
  match splitOnChar '/' s with
  | [ds, ms] =>
    if dayField ds && monthField ms then
      if strToNat ds ≤ monthDays (strToNat ms) then
        some (strToNat ds, strToNat ms)
      else none
    else none
  | _ => none

/-- One row of the global `birthdays` table:
`(user_id, birthday, guilds_hidden)`. -/
abbrev BdayTable := List (Nat × List Char × List Char)

/-- `set_user_birthday`: `INSERT OR REPLACE INTO birthdays (user_id,
birthday) VALUES (?, ?)` — the conflicting row is replaced whole, so
`guilds_hidden` reverts to its declared default `''`, and the fresh row
takes a new rowid at the end of the table. -/
def set_user_birthday (table : BdayTable) (uid : Nat) (bday : List Char) :
    BdayTable :=
  table.filter (fun row => !(row.1 == uid)) ++ [(uid, bday, [])]

/-- First row of the table for a user, as `SELECT ... WHERE user_id = ?`
returns it. -/
def bdayLookup (table : BdayTable) (uid : Nat) : Option (List Char × List Char) :=
  (table.find? (fun row => row.1 == uid)).map (fun row => row.2)

/-- Outcome reported by `/bday set`. -/
inductive BdayResp
  | invalidDate
  | dateSet
deriving DecidableEq, Repr

/-- `set_bday_command`: the body of `/bday set` — `strptime` inside
`try`/`except ValueError`, then `set_user_birthday` on success.  The
function is total: every input yields a reply, never an exception. -/
def set_bday_command (table : BdayTable) (userId : Nat) (date : List Char) :
    BdayResp × BdayTable :=
  match strptime_ddmm date with
  | none => (BdayResp.invalidDate, table)
  | some _ => (BdayResp.dateSet, set_user_birthday table userId date)

/-! #### Zodiac table -/

/-- Python `'%02d' % d`: zero-pad to two characters (wider numbers keep
all their digits). -/
def pad2 (d : Nat) : List Char :=
  if d < 10 then '0' :: natToStr d else natToStr d

/-- The `date_number` computed inside `get_zodiac_sign`:
`int(''.join((str(date.month), '%02d' % date.day)))`. -/
def date_number (month day : Nat) : Nat :=
  strToNat (natToStr month ++ pad2 day)

/-- The zodiac threshold table, verbatim from the source. -/
def zodiacs : List (Nat × String × String) :=
  [(120, "Capricorne", "♑"), (218, "Verseau", "♒"), (320, "Poisson", "♓"),
   (420, "Bélier", "♈"), (521, "Taureau", "♉"), (621, "Gémeaux", "♊"),
   (722, "Cancer", "♋"), (823, "Lion", "♌"), (923, "Vierge", "♍"),
   (1023, "Balance", "♎"), (1122, "Scorpion", "♏"), (1222, "Sagittaire", "♐"),
   (1231, "Capricorne", "♑")]

/-- `get_zodiac_sign` on the month and day of the argument `datetime`:
first table entry whose threshold bounds `date_number`, else the implicit
Python `None`. -/
def get_zodiac_sign (month day : Nat) : Option (String × String) :=
  (zodiacs.find? (fun z => decide (date_number month day ≤ z.1))).map
    (fun z => z.2)

/-! ### Store and cache lemmas -/

theorem rowsFor_assocSet_self (l : List (Nat × List Reminder)) (g : Nat)
    (v : List Reminder) : rowsFor (assocSet l g v) g = v := by
  induction l with
  | nil => simp [assocSet, rowsFor, List.find?]
  | cons p rest ih =>
    obtain ⟨k, w⟩ := p
    by_cases hk : k = g
    · simp [assocSet, hk, rowsFor, List.find?]
    · simp only [assocSet, if_neg hk]
      simp only [rowsFor] at ih ⊢
      rw [List.find?_cons_of_neg _ (by simp [hk])]
      exact ih

theorem get_reminders_update (st : EventsState) (gid : Nat) :
    get_reminders (update_reminders_cache st gid) gid = get_reminders st gid := rfl

theorem cacheFor_update (st : EventsState) (gid : Nat) :
    cacheFor (update_reminders_cache st gid) gid
      = get_reminders (update_reminders_cache st gid) gid := by
  show rowsFor (assocSet st.cache gid (get_reminders st gid)) gid = _
  rw [rowsFor_assocSet_self]
  rfl

theorem find?_filter_not_append {α : Type} (l l₂ : List α) (p : α → Bool) :
    (l.filter (fun x => !p x) ++ l₂).find? p = l₂.find? p := by
  induction l with
  | nil => rfl
  | cons a rest ih =>
    by_cases ha : p a
    · simpa [List.filter, ha] using ih
    · simp only [List.filter, ha]
      simpa [List.find?, ha] using ih

theorem find?_filter_not {α : Type} (l : List α) (p : α → Bool) :
    (l.filter (fun x => !p x)).find? p = none := by
  have h := find?_filter_not_append l [] p
  rw [List.append_nil] at h
  exact h

theorem find?_map_pres {α : Type} (l : List α) (p : α → Bool) (f : α → α)
    (hf : ∀ x, p (f x) = p x) :
    (l.map f).find? p = (l.find? p).map f := by
  induction l with
  | nil => rfl
  | cons a rest ih =>
    by_cases ha : p a
    · simp [List.find?, hf, ha]
    · simp only [List.map_cons, List.find?, hf, ha]
      simpa [List.find?, ha] using ih

theorem get_reminder_remove (st : EventsState) (gid rid : Nat) :
    get_reminder (remove_reminder st gid rid) gid rid = none := by
  simp only [get_reminder, remove_reminder, update_reminders_cache]
  rw [rowsFor_assocSet_self]
  exact find?_filter_not _ _

theorem cacheFor_remove (st : EventsState) (gid rid : Nat) :
    (cacheFor (remove_reminder st gid rid) gid).find? (fun r => r.id == rid)
      = none := by
  simp only [cacheFor, remove_reminder, update_reminders_cache, get_reminders]
  rw [rowsFor_assocSet_self, rowsFor_assocSet_self]
  exact find?_filter_not _ _

theorem get_reminder_setUserlist (st : EventsState) (gid rid : Nat)
    (ul : List Char) :
    get_reminder (setUserlist st gid rid ul) gid rid
      = (get_reminder st gid rid).map
          (fun r => if r.id == rid then { r with userlist := ul } else r) := by
  simp only [get_reminder, setUserlist, update_reminders_cache]
  rw [rowsFor_assocSet_self]
  simp only [updateUserlist]
  rw [find?_map_pres]
  intro x
  by_cases hx : x.id = rid <;> simp [hx]

/-! ### Scanner tick lemmas -/

/-- The invocation log an error-free tick produces for one guild entry:
one invocation per row due at `now`, in row order. -/
def dueIds (now : Int) (gid : Nat) (rs : List Reminder) : List (Nat × Nat) :=
  (rs.filter (fun r => decide (r.timestamp ≤ now))).map (fun r => (gid, r.id))

/-- The invocation log an error-free tick produces over a cache
snapshot. -/
def guildDueLog (env : Env) (now : Int)
    (entries : List (Nat × List Reminder)) : List (Nat × Nat) :=
  entries.foldr
    (fun p acc =>
      (if env.guilds.contains p.1 then dueIds now p.1 p.2 else []) ++ acc) []

theorem runItems_no_due (env : Env) (now : Int) (gid : Nat) :
    ∀ (rs : List Reminder) (st : EventsState),
      (∀ r ∈ rs, ¬ r.timestamp ≤ now) →
      runItems env now gid rs st = (st, [], none)
  | [], st, _ => rfl
  | r :: rs, st, h => by
    have hr : ¬ r.timestamp ≤ now := h r (by simp)
    simp only [runItems, if_neg hr]
    exact runItems_no_due env now gid rs st (fun x hx => h x (by simp [hx]))

theorem runGuilds_no_due (env : Env) (now : Int) :
    ∀ (entries : List (Nat × List Reminder)) (st : EventsState),
      (∀ p ∈ entries, ∀ r ∈ p.2, ¬ r.timestamp ≤ now) →
      runGuilds env now entries st = (st, [], none)
  | [], st, _ => rfl
  | (gid, rs) :: rest, st, h => by
    by_cases hg : env.guilds.contains gid
    · simp only [runGuilds, if_pos hg]
      rw [runItems_no_due env now gid rs st (h (gid, rs) (by simp))]
      have := runGuilds_no_due env now rest st
        (fun p hp => h p (by simp [hp]))
      simp [this]
    · simp only [runGuilds, if_neg hg]
      exact runGuilds_no_due env now rest st (fun p hp => h p (by simp [hp]))

theorem remindersTick_no_due (env : Env) (now : Int) (st : EventsState)
    (h : ∀ p ∈ st.cache, ∀ r ∈ p.2, ¬ r.timestamp ≤ now) :
    remindersTick env now st = (st, [], none) :=
  runGuilds_no_due env now st.cache st h

theorem runItems_log_of_no_error (env : Env) (now : Int) (gid : Nat) :
    ∀ (rs : List Reminder) (st : EventsState),
      (runItems env now gid rs st).2.2 = none →
      (runItems env now gid rs st).2.1 = dueIds now gid rs
  | [], st, _ => rfl
  | r :: rs, st, h => by
    by_cases hdue : r.timestamp ≤ now
    · rcases hh : handle_reminder env gid r.id st with ⟨st1, e⟩
      cases e with
      | none =>
        have hrw : runItems env now gid (r :: rs) st
            = ((runItems env now gid rs st1).1,
               (gid, r.id) :: (runItems env now gid rs st1).2.1,
               (runItems env now gid rs st1).2.2) := by
          simp [runItems, if_pos hdue, hh]
        rw [hrw] at h ⊢
        simp only at h ⊢
        rw [runItems_log_of_no_error env now gid rs st1 h]
        simp [dueIds, List.filter, hdue]
      | some e =>
        have hrw : runItems env now gid (r :: rs) st
            = (st1, [(gid, r.id)], some e) := by
          simp [runItems, if_pos hdue, hh]
        rw [hrw] at h
        simp at h
    · have hrw : runItems env now gid (r :: rs) st
          = runItems env now gid rs st := by
        simp [runItems, if_neg hdue]
      rw [hrw] at h ⊢
      rw [runItems_log_of_no_error env now gid rs st h]
      simp [dueIds, List.filter, hdue]

theorem guildDueLog_cons (env : Env) (now : Int) (gid : Nat)
    (rs : List Reminder) (rest : List (Nat × List Reminder)) :
    guildDueLog env now ((gid, rs) :: rest)
      = (if env.guilds.contains gid then dueIds now gid rs else [])
        ++ guildDueLog env now rest := rfl

theorem runGuilds_log_of_no_error (env : Env) (now : Int) :
    ∀ (entries : List (Nat × List Reminder)) (st : EventsState),
      (runGuilds env now entries st).2.2 = none →
      (runGuilds env now entries st).2.1 = guildDueLog env now entries
  | [], st, _ => rfl
  | (gid, rs) :: rest, st, h => by
    by_cases hg : env.guilds.contains gid
    · rcases hi : runItems env now gid rs st with ⟨st1, log1, e⟩
      cases e with
      | none =>
        have hrw : runGuilds env now ((gid, rs) :: rest) st
            = ((runGuilds env now rest st1).1,
               log1 ++ (runGuilds env now rest st1).2.1,
               (runGuilds env now rest st1).2.2) := by
          simp only [runGuilds]
          rw [if_pos hg, hi]
        rw [hrw] at h ⊢
        simp only at h ⊢
        rw [runGuilds_log_of_no_error env now rest st1 h]
        have hlog1 : log1 = dueIds now gid rs := by
          have := runItems_log_of_no_error env now gid rs st
          rw [hi] at this
          exact this rfl
        rw [guildDueLog_cons, if_pos hg, hlog1]
      | some e =>
        have hrw : runGuilds env now ((gid, rs) :: rest) st
            = (st1, log1, some e) := by
          simp only [runGuilds]
          rw [if_pos hg, hi]
        rw [hrw] at h
        simp at h
    · have hrw : runGuilds env now ((gid, rs) :: rest) st
          = runGuilds env now rest st := by
        simp only [runGuilds]
        rw [if_neg hg]
      rw [hrw] at h ⊢
      rw [runGuilds_log_of_no_error env now rest st h,
        guildDueLog_cons, if_neg hg]
      rfl

theorem mem_dueIds {now : Int} {gid' : Nat} {rs : List Reminder}
    {gid rid : Nat} :
    (gid, rid) ∈ dueIds now gid' rs ↔
      gid' = gid ∧ ∃ r ∈ rs, r.id = rid ∧ r.timestamp ≤ now := by
  simp only [dueIds, List.mem_map, List.mem_filter]
  constructor
  · rintro ⟨r, ⟨hr, hdue⟩, heq⟩
    injection heq with h1 h2
    exact ⟨h1, r, hr, h2, by simpa using hdue⟩
  · rintro ⟨rfl, r, hr, hid, hdue⟩
    exact ⟨r, ⟨hr, by simpa using hdue⟩, by rw [hid]⟩

theorem count_dueIds_ne_gid {now : Int} {gid' gid rid : Nat}
    (rs : List Reminder) (h : gid' ≠ gid) :
    (dueIds now gid' rs).count (gid, rid) = 0 := by
  rw [List.count_eq_zero]
  intro hmem
  exact h (mem_dueIds.mp hmem).1

theorem count_dueIds_id_not_mem {now : Int} {gid rid : Nat}
    (rs : List Reminder) (h : rid ∉ rs.map Reminder.id) :
    (dueIds now gid rs).count (gid, rid) = 0 := by
  rw [List.count_eq_zero]
  intro hmem
  obtain ⟨-, r, hr, hid, -⟩ := mem_dueIds.mp hmem
  exact h (List.mem_map.mpr ⟨r, hr, hid⟩)

theorem count_dueIds_one {now : Int} {gid : Nat} {rs : List Reminder}
    {r : Reminder} (hnd : (rs.map Reminder.id).Nodup) (hr : r ∈ rs)
    (hdue : r.timestamp ≤ now) :
    (dueIds now gid rs).count (gid, r.id) = 1 := by
  induction rs with
  | nil => cases hr
  | cons a l ih =>
    rw [List.map_cons, List.nodup_cons] at hnd
    rcases List.mem_cons.mp hr with rfl | hr'
    · have hcons : dueIds now gid (r :: l) = (gid, r.id) :: dueIds now gid l := by
        simp [dueIds, List.filter, hdue]
      rw [hcons, List.count_cons_self, count_dueIds_id_not_mem l hnd.1]
    · have hne : r.id ∈ l.map Reminder.id := List.mem_map.mpr ⟨r, hr', rfl⟩
      have haid : ¬ (gid, r.id) = (gid, a.id) := by
        intro hc
        injection hc with h1 h2
        exact hnd.1 (h2 ▸ hne)
      by_cases hda : a.timestamp ≤ now
      · have hcons : dueIds now gid (a :: l) = (gid, a.id) :: dueIds now gid l := by
          simp [dueIds, List.filter, hda]
        rw [hcons, List.count_cons_of_ne haid, ih hnd.2 hr']
      · have hcons : dueIds now gid (a :: l) = dueIds now gid l := by
          simp [dueIds, List.filter, hda]
        rw [hcons, ih hnd.2 hr']

theorem count_guildDueLog_zero (env : Env) (now : Int) :
    ∀ (entries : List (Nat × List Reminder)) {gid rid : Nat},
      gid ∉ entries.map Prod.fst →
      (guildDueLog env now entries).count (gid, rid) = 0
  | [], _, _, _ => rfl
  | (k, ws) :: rest, gid, rid, h => by
    rw [List.map_cons, List.mem_cons, not_or] at h
    rw [guildDueLog_cons, List.count_append,
      count_guildDueLog_zero env now rest h.2]
    by_cases hk : env.guilds.contains k
    · rw [if_pos hk, count_dueIds_ne_gid ws (fun hc => h.1 hc.symm)]
    · rw [if_neg hk]
      rfl

theorem count_guildDueLog_one (env : Env) (now : Int) :
    ∀ (entries : List (Nat × List Reminder)) {gid : Nat}
      {rs : List Reminder} {r : Reminder},
      (entries.map Prod.fst).Nodup → (gid, rs) ∈ entries →
      (rs.map Reminder.id).Nodup → env.guilds.contains gid = true →
      r ∈ rs → r.timestamp ≤ now →
      (guildDueLog env now entries).count (gid, r.id) = 1
  | [], _, _, _, _, hmem, _, _, _, _ => by cases hmem
  | (k, ws) :: rest, gid, rs, r, hkeys, hmem, hids, hg, hr, hdue => by
    rw [List.map_cons, List.nodup_cons] at hkeys
    rcases List.mem_cons.mp hmem with heq | hmem'
    · injection heq with hk hws
      subst hk
      subst hws
      rw [guildDueLog_cons, List.count_append, if_pos hg,
        count_dueIds_one hids hr hdue,
        count_guildDueLog_zero env now rest hkeys.1]
    · have hkg : k ≠ gid := by
        intro hc
        exact hkeys.1 (hc ▸ List.mem_map.mpr ⟨(gid, rs), hmem', rfl⟩)
      rw [guildDueLog_cons, List.count_append,
        count_guildDueLog_one env now rest hkeys.2 hmem' hids hg hr hdue]
      by_cases hk : env.guilds.contains k
      · rw [if_pos hk, count_dueIds_ne_gid ws hkg]
      · rw [if_neg hk]
        rfl

/-- Shared workhorse for C1, C2 and C5: in a tick that no exception
aborts, each reminder due at tick start, in a resolvable guild with a
well-formed cache, is passed to `handle_reminder` exactly once. -/
theorem tick_count_one (env : Env) (now : Int) (st : EventsState)
    (gid : Nat) (rs : List Reminder) (r : Reminder)
    (hkeys : (st.cache.map Prod.fst).Nodup)
    (hmem : (gid, rs) ∈ st.cache)
    (hids : (rs.map Reminder.id).Nodup)
    (hg : env.guilds.contains gid = true)
    (hr : r ∈ rs) (hdue : r.timestamp ≤ now)
    (hnoerr : (remindersTick env now st).2.2 = none) :
    (remindersTick env now st).2.1.count (gid, r.id) = 1 := by
  rw [remindersTick] at hnoerr ⊢
  rw [runGuilds_log_of_no_error env now st.cache st hnoerr]
  exact count_guildDueLog_one env now st.cache hkeys hmem hids hg hr hdue

/-! ### Birthday tick lemmas -/

/-- The event list one tick produces over all guilds (the `foldr` in
`birthdaysTick`). -/
def allGuildEvents (guilds : List BGuild) : List BEvent :=
  guilds.foldr (fun g acc => birthdayGuildEvents g ++ acc) []

theorem birthdaysTick_eq (guilds : List BGuild) (bucket last : List Char) :
    birthdaysTick guilds bucket last
      = if last = bucket then (last, [])
        else (bucket, allGuildEvents guilds) := rfl

theorem allGuildEvents_cons (bg : BGuild) (rest : List BGuild) :
    allGuildEvents (bg :: rest)
      = birthdayGuildEvents bg ++ allGuildEvents rest := rfl

theorem send_not_mem_roleEvents (bg : BGuild) (g : Nat) :
    BEvent.send g ∉ roleEvents bg := by
  intro hmem
  rw [roleEvents] at hmem
  by_cases hrs : bg.roleSet
  · rw [if_pos hrs] at hmem
    rcases List.mem_append.mp hmem with hm | hm <;>
    · obtain ⟨m, -, hEq⟩ := List.mem_map.mp hm
      exact BEvent.noConfusion hEq
  · rw [if_neg hrs] at hmem
    cases hmem

theorem mem_birthdayGuildEvents_send (bg : BGuild) (g : Nat)
    (h : BEvent.send g ∈ birthdayGuildEvents bg) : bg.id = g := by
  rw [birthdayGuildEvents] at h
  by_cases h1 : bg.birthdaysToday.isEmpty
  · rw [if_pos h1] at h
    cases h
  · rw [if_neg h1] at h
    by_cases h2 : bg.channelOk
    · rw [if_pos h2] at h
      by_cases h3 : !bg.notificationHour
      · rw [if_pos h3] at h
        cases h
      · rw [if_neg h3] at h
        rcases List.mem_cons.mp h with hEq | hm
        · simp only [BEvent.send.injEq] at hEq
          exact hEq.symm
        · by_cases h4 : bg.roleHour
          · rw [if_pos h4] at hm
            exact absurd hm (send_not_mem_roleEvents bg g)
          · rw [if_neg h4] at hm
            cases hm
    · rw [if_neg h2] at h
      by_cases h4 : bg.roleHour
      · rw [if_pos h4] at h
        exact absurd h (send_not_mem_roleEvents bg g)
      · rw [if_neg h4] at h
        cases h

theorem count_send_guildEvents_le_one (bg : BGuild) (g : Nat) :
    (birthdayGuildEvents bg).count (BEvent.send g) ≤ 1 := by
  rw [birthdayGuildEvents]
  by_cases h1 : bg.birthdaysToday.isEmpty
  · rw [if_pos h1, List.count_nil]
    omega
  · rw [if_neg h1]
    by_cases h2 : bg.channelOk
    · rw [if_pos h2]
      by_cases h3 : !bg.notificationHour
      · rw [if_pos h3, List.count_nil]
        omega
      · rw [if_neg h3]
        have htail : (if bg.roleHour then roleEvents bg else []).count
            (BEvent.send g) = 0 := by
          by_cases h4 : bg.roleHour
          · rw [if_pos h4, List.count_eq_zero]
            exact send_not_mem_roleEvents bg g
          · rw [if_neg h4, List.count_nil]
        rw [List.count_cons, htail]
        split <;> omega
    · rw [if_neg h2]
      by_cases h4 : bg.roleHour
      · rw [if_pos h4, List.count_eq_zero.mpr (send_not_mem_roleEvents bg g)]
        omega
      · rw [if_neg h4, List.count_nil]
        omega

theorem count_send_guildEvents_zero (bg : BGuild) (g : Nat) (h : bg.id ≠ g) :
    (birthdayGuildEvents bg).count (BEvent.send g) = 0 := by
  rw [List.count_eq_zero]
  intro hmem
  exact h (mem_birthdayGuildEvents_send bg g hmem)

theorem count_send_allGuildEvents_zero (g : Nat) :
    ∀ guilds : List BGuild, g ∉ guilds.map BGuild.id →
      (allGuildEvents guilds).count (BEvent.send g) = 0
  | [], _ => rfl
  | bg :: rest, h => by
    rw [List.map_cons, List.mem_cons, not_or] at h
    rw [allGuildEvents_cons, List.count_append,
      count_send_guildEvents_zero bg g (fun hc => h.1 hc.symm),
      count_send_allGuildEvents_zero g rest h.2]

theorem count_send_allGuildEvents_le_one (g : Nat) :
    ∀ guilds : List BGuild, (guilds.map BGuild.id).Nodup →
      (allGuildEvents guilds).count (BEvent.send g) ≤ 1
  | [], _ => by simp [allGuildEvents]
  | bg :: rest, h => by
    rw [List.map_cons, List.nodup_cons] at h
    rw [allGuildEvents_cons, List.count_append]
    by_cases hid : bg.id = g
    · subst hid
      have hz : (allGuildEvents rest).count (BEvent.send bg.id) = 0 :=
        count_send_allGuildEvents_zero bg.id rest h.1
      have := count_send_guildEvents_le_one bg bg.id
      omega
    · rw [count_send_guildEvents_zero bg g hid]
      have := count_send_allGuildEvents_le_one g rest h.2
      omega

/-! ### Claims -/

/-- C3: a recurring birthday notification fires at most once per
`day/month:hour` bucket: across two consecutive ticks of
`birthdays_loop` whose bucket strings coincide, a given guild receives at
most one notification send, because `last_check` is assigned the current
bucket before any guild is processed. -/
theorem C3_birthday_dedup (guilds1 guilds2 : List BGuild)
    (bucket last0 : List Char) (g : Nat)
    (hnd : (guilds1.map BGuild.id).Nodup) :
    ((birthdaysTick guilds1 bucket last0).2
      ++ (birthdaysTick guilds2 bucket
            (birthdaysTick guilds1 bucket last0).1).2).count (BEvent.send g)
      ≤ 1 := by
  by_cases hb : last0 = bucket
  · have t1 : birthdaysTick guilds1 bucket last0 = (last0, []) := by
      rw [birthdaysTick_eq, if_pos hb]
    rw [t1]
    show (([] : List BEvent)
        ++ (birthdaysTick guilds2 bucket last0).2).count (BEvent.send g) ≤ 1
    rw [birthdaysTick_eq, if_pos hb]
    show (([] : List BEvent) ++ ([] : List BEvent)).count (BEvent.send g) ≤ 1
    rw [List.nil_append, List.count_nil]
    omega
  · have t1 : birthdaysTick guilds1 bucket last0
        = (bucket, allGuildEvents guilds1) := by
      rw [birthdaysTick_eq, if_neg hb]
    rw [t1]
    show (allGuildEvents guilds1
        ++ (birthdaysTick guilds2 bucket bucket).2).count (BEvent.send g) ≤ 1
    rw [birthdaysTick_eq, if_pos rfl]
    show (allGuildEvents guilds1 ++ ([] : List BEvent)).count (BEvent.send g) ≤ 1
    rw [List.append_nil]
    exact count_send_allGuildEvents_le_one g guilds1 hnd

/-- C3 witness: a guild with a birthday today, channel configured and the
notification hour reached, scanned twice in the same bucket. -/
theorem C3_birthday_dedup_witness :
    (((birthdaysTick [⟨1, [7], true, true, false, false, [7], []⟩]
        ('0' :: '1' :: '/' :: '0' :: '1' :: ':' :: '0' :: []) []).2
      ++ (birthdaysTick [⟨1, [7], true, true, false, false, [7], []⟩]
            ('0' :: '1' :: '/' :: '0' :: '1' :: ':' :: '0' :: [])
            (birthdaysTick [⟨1, [7], true, true, false, false, [7], []⟩]
              ('0' :: '1' :: '/' :: '0' :: '1' :: ':' :: '0' :: []) []).1).2).count
        (BEvent.send 1)) ≤ 1 :=
  C3_birthday_dedup _ _ _ _ 1 (by decide)

/-- C4: every mutating reminder operation refreshes the cache, so the
cache for the touched guild equals the store rows afterwards (given it
was in sync before, which also covers the branches that reject the
mutation and touch nothing); and after `set_reminder` the cache holds a
row with the requested content and timestamp with no external refresh. -/
theorem C4_cache_matches_store (st : EventsState) (gid : Nat)
    (content : String) (ts : Int) (ch auth : Nat) (users : List Nat)
    (rid uid : Nat)
    (hsync : cacheFor st gid = get_reminders st gid) :
    (cacheFor (set_reminder st gid content ts ch auth users) gid
       = get_reminders (set_reminder st gid content ts ch auth users) gid) ∧
    (cacheFor (remove_reminder st gid rid) gid
       = get_reminders (remove_reminder st gid rid) gid) ∧
    (cacheFor (add_reminder_user st gid rid uid).1 gid
       = get_reminders (add_reminder_user st gid rid uid).1 gid) ∧
    (cacheFor (remove_reminder_user st gid rid uid) gid
       = get_reminders (remove_reminder_user st gid rid uid) gid) ∧
    (∃ rr, rr ∈ cacheFor (set_reminder st gid content ts ch auth users) gid ∧
       rr.content = content ∧ rr.timestamp = ts) := by
  refine ⟨cacheFor_update _ _, cacheFor_update _ _, ?_, ?_, ?_⟩
  · rcases hg : get_reminder st gid rid with - | r
    · simpa [add_reminder_user, hg] using hsync
    · by_cases h1 : r.userlist = []
      · simp only [add_reminder_user, hg, if_pos h1]
        exact cacheFor_update _ _
      · by_cases h2 : natToStr uid ∉ splitOnChar ',' r.userlist
        · simp only [add_reminder_user, hg, if_neg h1, if_pos h2]
          exact cacheFor_update _ _
        · simp only [add_reminder_user, hg, if_neg h1, if_neg h2]
          exact hsync
  · rcases hg : get_reminder st gid rid with - | r
    · simpa [remove_reminder_user, hg] using hsync
    · by_cases h1 : r.userlist = []
      · simpa [remove_reminder_user, hg, if_pos h1] using hsync
      · simp only [remove_reminder_user, hg, if_neg h1]
        by_cases h2 : uid ∈ ((splitOnChar ',' r.userlist).filter
            (fun s => !s.isEmpty)).map strToNat
        · simp only [if_pos h2]
          exact cacheFor_update _ _
        · simp only [if_neg h2]
          exact hsync
  · refine ⟨⟨((rowsFor st.store gid).map Reminder.id).foldr max 0 + 1,
      content, ts, ch, auth, natsJoin users⟩, ?_, rfl, rfl⟩
    show _ ∈ cacheFor (update_reminders_cache
      { st with store := assocSet st.store gid (rowsFor st.store gid
        ++ [⟨((rowsFor st.store gid).map Reminder.id).foldr max 0 + 1,
             content, ts, ch, auth, natsJoin users⟩]) } gid) gid
    rw [cacheFor_update, get_reminders_update]
    show _ ∈ rowsFor (assocSet st.store gid _) gid
    rw [rowsFor_assocSet_self]
    simp

/-- C4 witness: a fresh state with an in-sync (empty) cache. -/
theorem C4_cache_matches_store_witness :
    (cacheFor (set_reminder ⟨[], []⟩ 1 "m" 50 10 42 []) 1
       = get_reminders (set_reminder ⟨[], []⟩ 1 "m" 50 10 42 []) 1) ∧
    (cacheFor (remove_reminder ⟨[], []⟩ 1 1) 1
       = get_reminders (remove_reminder ⟨[], []⟩ 1 1) 1) ∧
    (cacheFor (add_reminder_user ⟨[], []⟩ 1 1 7).1 1
       = get_reminders (add_reminder_user ⟨[], []⟩ 1 1 7).1 1) ∧
    (cacheFor (remove_reminder_user ⟨[], []⟩ 1 1 7) 1
       = get_reminders (remove_reminder_user ⟨[], []⟩ 1 1 7) 1) ∧
    (∃ rr, rr ∈ cacheFor (set_reminder ⟨[], []⟩ 1 "m" 50 10 42 []) 1 ∧
       rr.content = "m" ∧ rr.timestamp = 50) :=
  C4_cache_matches_store ⟨[], []⟩ 1 "m" 50 10 42 [] 1 7 (by decide)

/-- C6: a tick over a cache with no due reminder invokes the dispatcher
zero times and leaves the whole state (store and cache) unchanged; the
same holds for a second consecutive tick. -/
theorem C6_no_due_ticks (env : Env) (now₁ now₂ : Int) (st : EventsState)
    (h₁ : ∀ p ∈ st.cache, ∀ r ∈ p.2, ¬ r.timestamp ≤ now₁)
    (h₂ : ∀ p ∈ st.cache, ∀ r ∈ p.2, ¬ r.timestamp ≤ now₂) :
    remindersTick env now₁ st = (st, [], none) ∧
    remindersTick env now₂ (remindersTick env now₁ st).1 = (st, [], none) := by
  have t1 := remindersTick_no_due env now₁ st h₁
  refine ⟨t1, ?_⟩
  rw [t1]
  exact remindersTick_no_due env now₂ st h₂

/-- C6 witness: one reminder due at 50, ticks at 40 and 41. -/
theorem C6_no_due_ticks_witness :
    remindersTick ⟨[1], fun _ _ => true, fun _ _ => true⟩ 40
        ⟨[(1, [⟨1, "m", 50, 10, 42, []⟩])], [(1, [⟨1, "m", 50, 10, 42, []⟩])]⟩
      = (⟨[(1, [⟨1, "m", 50, 10, 42, []⟩])],
          [(1, [⟨1, "m", 50, 10, 42, []⟩])]⟩, [], none) ∧
    remindersTick ⟨[1], fun _ _ => true, fun _ _ => true⟩ 41
        (remindersTick ⟨[1], fun _ _ => true, fun _ _ => true⟩ 40
          ⟨[(1, [⟨1, "m", 50, 10, 42, []⟩])],
           [(1, [⟨1, "m", 50, 10, 42, []⟩])]⟩).1
      = (⟨[(1, [⟨1, "m", 50, 10, 42, []⟩])],
          [(1, [⟨1, "m", 50, 10, 42, []⟩])]⟩, [], none) :=
  C6_no_due_ticks _ 40 41 _ (by decide) (by decide)

/-- C8: `/remindme delete` removes an existing reminder only when the
invoker is simultaneously its author and holds `manage_guild` (the code
tests `user.id != author_id or not manage_guild`); whenever the invoker
is not the author or lacks the permission, the command answers with the
permission refusal and the state, hence the stored reminder, is
untouched. -/
theorem C8_delete_requires_author_and_perm (st : EventsState)
    (gid userId : Nat) (perm : Bool) (rid : Nat) (confirm : Bool)
    (r : Reminder) (hr : get_reminder st gid rid = some r) :
    ((delete_reminder_command st gid userId perm rid confirm).1
        = DelResp.deleted → userId = r.author_id ∧ perm = true) ∧
    ((¬ userId = r.author_id ∨ perm = false) →
       delete_reminder_command st gid userId perm rid confirm
         = (DelResp.noPerm, st) ∧ get_reminder st gid rid = some r) := by
  constructor
  · intro hdel
    simp only [delete_reminder_command, hr] at hdel
    by_cases hcond : ¬ userId = r.author_id ∨ perm = false
    · rw [if_pos hcond] at hdel
      exact absurd hdel (by simp)
    · push_neg at hcond
      refine ⟨hcond.1, ?_⟩
      cases perm
      · exact absurd rfl hcond.2
      · rfl
  · intro hcond
    refine ⟨?_, hr⟩
    simp only [delete_reminder_command, hr]
    rw [if_pos hcond]

/-- C8 witness: invoker 99 is not the author (42) of reminder 1, even
with `manage_guild`; the command refuses and the state is unchanged. -/
theorem C8_delete_requires_author_and_perm_witness :
    ((delete_reminder_command
        ⟨[(1, [⟨1, "m", 50, 10, 42, []⟩])], [(1, [⟨1, "m", 50, 10, 42, []⟩])]⟩
        1 99 true 1 true).1 = DelResp.deleted →
      (99 : Nat) = (⟨1, "m", 50, 10, 42, []⟩ : Reminder).author_id ∧
        true = true) ∧
    ((¬ (99 : Nat) = (⟨1, "m", 50, 10, 42, []⟩ : Reminder).author_id ∨
        true = false) →
      delete_reminder_command
          ⟨[(1, [⟨1, "m", 50, 10, 42, []⟩])], [(1, [⟨1, "m", 50, 10, 42, []⟩])]⟩
          1 99 true 1 true
        = (DelResp.noPerm,
           ⟨[(1, [⟨1, "m", 50, 10, 42, []⟩])], [(1, [⟨1, "m", 50, 10, 42, []⟩])]⟩) ∧
      get_reminder
          ⟨[(1, [⟨1, "m", 50, 10, 42, []⟩])], [(1, [⟨1, "m", 50, 10, 42, []⟩])]⟩
          1 1 = some ⟨1, "m", 50, 10, 42, []⟩) :=
  C8_delete_requires_author_and_perm _ 1 99 true 1 true _ (by decide)

/-- C7: every input to `/bday set` that `strptime('%d/%m')` rejects gets
the corrective reply and leaves the birthdays table untouched; every
input it accepts sets the row of the invoking user to that date string
(with the hidden-guild column reset to the column default).  The command
body is a total function here: `ValueError` is the only exception
`strptime` raises on a `str`, and it is caught. -/
theorem C7_set_bday_validation (table : BdayTable) (uid : Nat)
    (date : List Char) :
    (strptime_ddmm date = none →
       set_bday_command table uid date = (BdayResp.invalidDate, table)) ∧
    (∀ dm, strptime_ddmm date = some dm →
       (set_bday_command table uid date).1 = BdayResp.dateSet ∧
       bdayLookup (set_bday_command table uid date).2 uid
         = some (date, [])) := by
  constructor
  · intro h
    simp [set_bday_command, h]
  · intro dm h
    have hcmd : set_bday_command table uid date
        = (BdayResp.dateSet, set_user_birthday table uid date) := by
      simp [set_bday_command, h]
    rw [hcmd]
    refine ⟨rfl, ?_⟩
    simp only [set_user_birthday, bdayLookup]
    rw [find?_filter_not_append]
    simp [List.find?]

/-- C7 witness: `31/02` is rejected (day 31 exceeds February) and the
table is unchanged; `29/12` is accepted and stored verbatim. -/
theorem C7_set_bday_validation_witness :
    (set_bday_command [] 42 ("31/02".data) = (BdayResp.invalidDate, [])) ∧
    ((set_bday_command [] 42 ("29/12".data)).1 = BdayResp.dateSet ∧
     bdayLookup (set_bday_command [] 42 ("29/12".data)).2 42
       = some ("29/12".data, [])) :=
  ⟨(C7_set_bday_validation [] 42 ("31/02".data)).1 (by decide),
   (C7_set_bday_validation [] 42 ("29/12".data)).2 (29, 12) (by decide)⟩

/-! ### Dispatcher behaviour lemmas -/

theorem handle_reminder_success (env : Env) (gid rid : Nat)
    (st : EventsState) (r : Reminder)
    (hr : get_reminder st gid rid = some r)
    (hch : env.channelExists gid r.channel_id = true)
    (hsend : env.sendOk gid r.channel_id = true) :
    handle_reminder env gid rid st = (remove_reminder st gid rid, none) := by
  simp only [handle_reminder, hr]
  rw [if_pos hch, if_pos hsend]

theorem handle_reminder_send_raises (env : Env) (gid rid : Nat)
    (st : EventsState) (r : Reminder)
    (hr : get_reminder st gid rid = some r)
    (hch : env.channelExists gid r.channel_id = true)
    (hsend : env.sendOk gid r.channel_id = false) :
    handle_reminder env gid rid st = (st, some (gid, rid)) := by
  simp only [handle_reminder, hr]
  rw [if_pos hch, if_neg (by simp [hsend])]

theorem handle_reminder_no_channel (env : Env) (gid rid : Nat)
    (st : EventsState) (r : Reminder)
    (hr : get_reminder st gid rid = some r)
    (hch : env.channelExists gid r.channel_id = false) :
    handle_reminder env gid rid st = (st, none) := by
  simp only [handle_reminder, hr]
  rw [if_neg (by simp [hch])]

/-! ### Concrete material for the scanner claims -/

/-- Client in which every channel resolves and every send succeeds. -/
def wEnvOk : Env := ⟨[1], fun _ _ => true, fun _ _ => true⟩

/-- A reminder due at 50 on channel 10 of guild 1. -/
def wRemDue : Reminder := ⟨1, "m", 50, 10, 42, []⟩

/-- State holding `wRemDue`, cache in sync. -/
def wStateDue : EventsState := ⟨[(1, [wRemDue])], [(1, [wRemDue])]⟩

/-- Client in which every channel resolves and every send raises. -/
def wEnvFail : Env := ⟨[1], fun _ _ => true, fun _ _ => false⟩

/-- A reminder on channel 30, used with `wEnvFail`. -/
def wRemE : Reminder := ⟨5, "e", 10, 30, 42, []⟩

/-- State holding `wRemE`, cache in sync. -/
def wStateE : EventsState := ⟨[(1, [wRemE])], [(1, [wRemE])]⟩

/-- Client in which only channel 41 resolves; sends succeed. -/
def wEnvPart : Env := ⟨[1], fun _ c => c == 41, fun _ _ => true⟩

/-- A due reminder whose channel 40 does not resolve (early return). -/
def wRemF : Reminder := ⟨6, "f", 10, 40, 42, []⟩

/-- A due reminder on the resolvable channel 41. -/
def wRemG : Reminder := ⟨7, "g", 20, 41, 42, []⟩

/-- State holding `wRemF` then `wRemG` for guild 1, cache in sync. -/
def wStateFG : EventsState :=
  ⟨[(1, [wRemF, wRemG])], [(1, [wRemF, wRemG])]⟩

/-- Client for the counterexamples: all channels resolve, but sends on
channel 10 raise while channel 11 succeeds. -/
def ceEnv1 : Env := ⟨[1], fun _ _ => true, fun _ c => c == 11⟩

/-- Due reminder whose send raises (channel 10 under `ceEnv1`). -/
def ceRemA : Reminder := ⟨1, "a", 10, 10, 42, []⟩

/-- Due reminder whose send would succeed (channel 11 under `ceEnv1`). -/
def ceRemB : Reminder := ⟨2, "b", 20, 11, 42, []⟩

/-- State holding `ceRemA` then `ceRemB` for guild 1, cache in sync. -/
def ceState1 : EventsState :=
  ⟨[(1, [ceRemA, ceRemB])], [(1, [ceRemA, ceRemB])]⟩

/-- Client for the C2 counterexample: sends on channel 20 raise,
channel 21 succeeds. -/
def ceEnv2 : Env := ⟨[1], fun _ _ => true, fun _ c => c == 21⟩

/-- Due reminder whose send raises (channel 20 under `ceEnv2`). -/
def ceRemC : Reminder := ⟨3, "c", 30, 20, 42, []⟩

/-- Due reminder whose send would succeed (channel 21 under `ceEnv2`). -/
def ceRemD : Reminder := ⟨4, "d", 40, 21, 42, []⟩

/-- State holding `ceRemC` then `ceRemD` for guild 1, cache in sync. -/
def ceState2 : EventsState :=
  ⟨[(1, [ceRemC, ceRemD])], [(1, [ceRemC, ceRemD])]⟩

/-- C1 counterexample: the claim as stated is false.  Reminder 2 of
guild 1 is due at tick start (timestamp 20 ≤ 100) and the guild
resolves, yet the tick invokes `handle_reminder` for it zero times, not
exactly once, because the send for reminder 1 raised and the uncaught
exception aborted the tick. -/
theorem C1_counterexample :
    ((1, [ceRemA, ceRemB]) ∈ ceState1.cache ∧ ceRemB ∈ [ceRemA, ceRemB] ∧
      ceRemB.timestamp ≤ 100 ∧ ceEnv1.guilds.contains 1 = true) ∧
    (remindersTick ceEnv1 100 ceState1).2.1.count (1, ceRemB.id) = 0 := by
  decide

/-- C1 (amended): in a tick no exception aborts, every reminder due at
tick start in a resolvable guild (well-formed cache: distinct dict keys,
distinct row ids) is passed to `handle_reminder` exactly once; and a
successful dispatch (reminder present, channel resolves, send succeeds)
deletes the reminder from the store and leaves it absent from the cache
immediately afterwards. -/
theorem C1_due_dispatch_and_delete (env : Env) (now : Int)
    (st : EventsState) (gid : Nat) (rs : List Reminder) (r : Reminder)
    (hkeys : (st.cache.map Prod.fst).Nodup)
    (hmem : (gid, rs) ∈ st.cache)
    (hids : (rs.map Reminder.id).Nodup)
    (hg : env.guilds.contains gid = true)
    (hr : r ∈ rs) (hdue : r.timestamp ≤ now)
    (hnoerr : (remindersTick env now st).2.2 = none) :
    (remindersTick env now st).2.1.count (gid, r.id) = 1 ∧
    (∀ (st' : EventsState) (r' : Reminder),
       get_reminder st' gid r.id = some r' →
       env.channelExists gid r'.channel_id = true →
       env.sendOk gid r'.channel_id = true →
       handle_reminder env gid r.id st' = (remove_reminder st' gid r.id, none) ∧
       get_reminder (remove_reminder st' gid r.id) gid r.id = none ∧
       (cacheFor (remove_reminder st' gid r.id) gid).find?
           (fun x => x.id == r.id) = none) := by
  refine ⟨tick_count_one env now st gid rs r hkeys hmem hids hg hr hdue hnoerr,
    ?_⟩
  intro st' r' hr' hch hsend
  exact ⟨handle_reminder_success env gid r.id st' r' hr' hch hsend,
    get_reminder_remove st' gid r.id, cacheFor_remove st' gid r.id⟩

/-- C1 witness: one due reminder, everything succeeds. -/
theorem C1_due_dispatch_and_delete_witness :
    (remindersTick wEnvOk 100 wStateDue).2.1.count (1, wRemDue.id) = 1 ∧
    (handle_reminder wEnvOk 1 wRemDue.id wStateDue
        = (remove_reminder wStateDue 1 wRemDue.id, none) ∧
     get_reminder (remove_reminder wStateDue 1 wRemDue.id) 1 wRemDue.id
        = none ∧
     (cacheFor (remove_reminder wStateDue 1 wRemDue.id) 1).find?
         (fun x => x.id == wRemDue.id) = none) :=
  ⟨(C1_due_dispatch_and_delete wEnvOk 100 wStateDue 1 [wRemDue] wRemDue
      (by decide) (by decide) (by decide) (by decide) (by decide) (by decide)
      (by decide)).1,
   (C1_due_dispatch_and_delete wEnvOk 100 wStateDue 1 [wRemDue] wRemDue
      (by decide) (by decide) (by decide) (by decide) (by decide) (by decide)
      (by decide)).2 wStateDue wRemDue (by decide) (by decide) (by decide)⟩

/-- C2 counterexample: the claim as stated is false.  The dispatch of
reminder 3 fails and `handle_reminder` propagates the exception to the
scanner (second component `some`), the tick aborts with that exception,
and the other due reminder 4 of the same tick is never dispatched. -/
theorem C2_counterexample :
    (handle_reminder ceEnv2 1 3 ceState2).2 = some (1, 3) ∧
    (remindersTick ceEnv2 100 ceState2).2.2 = some (1, 3) ∧
    ceRemD.timestamp ≤ 100 ∧
    (remindersTick ceEnv2 100 ceState2).2.1.count (1, ceRemD.id) = 0 := by
  decide

/-- C2 (amended): `handle_reminder` catches nothing — when the send of a
due reminder raises, the exception escapes to the scanner with the state
unchanged, and the rest of the tick is aborted (see the counterexample);
only failures that surface as a missing or non-text channel return
normally, and those are isolated: all due reminders of the entry,
including the failing one, are still dispatched exactly once in an
exception-free tick. -/
theorem C2_failure_isolation_amended (env : Env) (st : EventsState)
    (gid : Nat) (r : Reminder) (rid : Nat) (now : Int)
    (rs : List Reminder) (b : Reminder) :
    (get_reminder st gid rid = some r →
     env.channelExists gid r.channel_id = true →
     env.sendOk gid r.channel_id = false →
     handle_reminder env gid rid st = (st, some (gid, rid))) ∧
    ((st.cache.map Prod.fst).Nodup → (gid, rs) ∈ st.cache →
     (rs.map Reminder.id).Nodup → env.guilds.contains gid = true →
     r ∈ rs → r.timestamp ≤ now →
     env.channelExists gid r.channel_id = false →
     b ∈ rs → b.timestamp ≤ now →
     (remindersTick env now st).2.2 = none →
     (remindersTick env now st).2.1.count (gid, b.id) = 1 ∧
     (remindersTick env now st).2.1.count (gid, r.id) = 1) := by
  constructor
  · intro hr hch hsend
    exact handle_reminder_send_raises env gid rid st r hr hch hsend
  · intro hkeys hmem hids hg hr hdue hch hb hbdue hnoerr
    exact ⟨tick_count_one env now st gid rs b hkeys hmem hids hg hb hbdue
      hnoerr,
      tick_count_one env now st gid rs r hkeys hmem hids hg hr hdue hnoerr⟩

/-- C2 witness: the propagation half on a state whose only send raises,
and the isolation half on a tick where one due reminder has no channel
and the other is still delivered. -/
theorem C2_failure_isolation_amended_witness :
    handle_reminder wEnvFail 1 5 wStateE = (wStateE, some (1, 5)) ∧
    ((remindersTick wEnvPart 100 wStateFG).2.1.count (1, wRemG.id) = 1 ∧
     (remindersTick wEnvPart 100 wStateFG).2.1.count (1, wRemF.id) = 1) :=
  ⟨(C2_failure_isolation_amended wEnvFail wStateE 1 wRemE 5 0 [] wRemE).1
      (by decide) (by decide) (by decide),
   (C2_failure_isolation_amended wEnvPart wStateFG 1 wRemF 0 100
      [wRemF, wRemG] wRemG).2 (by decide) (by decide) (by decide) (by decide)
      (by decide) (by decide) (by decide) (by decide) (by decide) (by decide)⟩

/-- C5: when the dispatch of a due reminder fails before the send
completes — the channel does not resolve (early return), or the send
raises — the state comes back unchanged: the reminder is deleted from
neither store nor cache; and on a later tick over that unchanged state in
which it is still due, it is passed to the dispatcher again (exactly
once, given the tick completes without an exception). -/
theorem C5_failure_atomic_retry (env : Env) (st : EventsState)
    (gid rid : Nat) (r : Reminder) (now' : Int) (rs : List Reminder)
    (hr : get_reminder st gid rid = some r) :
    (env.channelExists gid r.channel_id = false →
       handle_reminder env gid rid st = (st, none)) ∧
    (env.channelExists gid r.channel_id = true →
     env.sendOk gid r.channel_id = false →
       handle_reminder env gid rid st = (st, some (gid, rid))) ∧
    ((st.cache.map Prod.fst).Nodup → (gid, rs) ∈ st.cache →
     (rs.map Reminder.id).Nodup → env.guilds.contains gid = true →
     r ∈ rs → r.timestamp ≤ now' →
     (remindersTick env now' st).2.2 = none →
     (remindersTick env now' st).2.1.count (gid, r.id) = 1) := by
  refine ⟨?_, ?_, ?_⟩
  · intro hch
    exact handle_reminder_no_channel env gid rid st r hr hch
  · intro hch hsend
    exact handle_reminder_send_raises env gid rid st r hr hch hsend
  · intro hkeys hmem hids hg hrm hdue hnoerr
    exact tick_count_one env now' st gid rs r hkeys hmem hids hg hrm hdue
      hnoerr

/-- C5 witness: the early-return failure on a missing channel leaves the
state unchanged and the reminder is dispatched on a later tick; the
raising send also leaves the state unchanged. -/
theorem C5_failure_atomic_retry_witness :
    handle_reminder wEnvPart 1 6 wStateFG = (wStateFG, none) ∧
    handle_reminder wEnvFail 1 5 wStateE = (wStateE, some (1, 5)) ∧
    (remindersTick wEnvPart 100 wStateFG).2.1.count (1, wRemF.id) = 1 :=
  ⟨(C5_failure_atomic_retry wEnvPart wStateFG 1 6 wRemF 100 [wRemF, wRemG]
      (by decide)).1 (by decide),
   (C5_failure_atomic_retry wEnvFail wStateE 1 5 wRemE 0 []
      (by decide)).2.1 (by decide) (by decide),
   (C5_failure_atomic_retry wEnvPart wStateFG 1 6 wRemF 100 [wRemF, wRemG]
      (by decide)).2.2 (by decide) (by decide) (by decide) (by decide)
      (by decide) (by decide) (by decide)⟩

/-! ### User-list round trip (C9) -/

theorem map_strToNat_natToStr (l : List Nat) :
    (l.map natToStr).map strToNat = l := by
  rw [List.map_map]
  have hcomp : strToNat ∘ natToStr = id := funext strToNat_natToStr
  rw [hcomp, List.map_id]

theorem count_map_natToStr (l : List Nat) (u : Nat) :
    (l.map natToStr).count (natToStr u) = l.count u := by
  induction l with
  | nil => rfl
  | cons a t ih =>
    rw [List.map_cons, List.count_cons, List.count_cons, ih]
    congr 1
    by_cases hau : u = a
    · subst hau
      simp
    · have hns : ¬ natToStr u = natToStr a :=
        fun hc => hau (natToStr_injective hc)
      have hc1 : ¬ ((natToStr a == natToStr u) = true) := by
        simp only [beq_iff_eq]
        exact fun hc => hns hc.symm
      have hc2 : ¬ ((a == u) = true) := by
        simp only [beq_iff_eq]
        exact fun hc => hau hc.symm
      rw [if_neg hc1, if_neg hc2]

theorem filter_isEmpty_map_natToStr (l : List Nat) :
    (l.map natToStr).filter (fun s => !s.isEmpty) = l.map natToStr := by
  rw [List.filter_eq_self]
  intro s hs
  obtain ⟨n, -, rfl⟩ := List.mem_map.mp hs
  cases hn : natToStr n with
  | nil => exact absurd hn (natToStr_ne_nil n)
  | cons c t => rfl

theorem erase_append_self (l : List Nat) (u : Nat) (h : u ∉ l) :
    (l ++ [u]).erase u = l := by
  rw [List.erase_append_right _ h, List.erase_cons_head, List.append_nil]

/-- On a reminder whose user list serialises a `List Nat` that does not
contain `u`, `add_reminder_user` succeeds and writes the serialisation of
the appended list. -/
theorem add_reminder_user_fresh (st : EventsState) (gid rid u : Nat)
    (l : List Nat) (r : Reminder)
    (hr : get_reminder st gid rid = some r)
    (hul : r.userlist = natsJoin l) (hu : u ∉ l) :
    add_reminder_user st gid rid u
      = (setUserlist st gid rid (natsJoin (l ++ [u])), true) := by
  cases l with
  | nil =>
    simp only [add_reminder_user, hr]
    rw [if_pos (by rw [hul]; rfl)]
    rfl
  | cons a t =>
    have hne : (a :: t : List Nat) ≠ [] := by simp
    have hulne : ¬ r.userlist = [] := by
      rw [hul]
      exact natsJoin_ne_nil _ hne
    have hmem : natToStr u ∉ splitOnChar ',' r.userlist := by
      rw [hul, splitOnChar_natsJoin _ hne]
      intro hc
      exact hu ((List.mem_map_of_injective natToStr_injective).mp hc)
    simp only [add_reminder_user, hr]
    rw [if_neg hulne, if_pos hmem, hul, ← natsJoin_append_single _ u hne]

/-- C9: for an existing reminder whose user list serialises `l` with
`u ∉ l`, `add_reminder_user` returns `true` and stores the list with `u`
appended, in which `u` occurs exactly once; adding the same user again
returns `false` and changes nothing; and `remove_reminder_user` after the
successful add restores the original reminder row. -/
theorem C9_userlist_roundtrip (st : EventsState) (gid rid u : Nat)
    (l : List Nat) (r : Reminder)
    (hr : get_reminder st gid rid = some r)
    (hul : r.userlist = natsJoin l) (hu : u ∉ l) :
    (add_reminder_user st gid rid u).2 = true ∧
    get_reminder (add_reminder_user st gid rid u).1 gid rid
      = some { r with userlist := natsJoin (l ++ [u]) } ∧
    (splitOnChar ',' (natsJoin (l ++ [u]))).count (natToStr u) = 1 ∧
    add_reminder_user (add_reminder_user st gid rid u).1 gid rid u
      = ((add_reminder_user st gid rid u).1, false) ∧
    get_reminder
        (remove_reminder_user (add_reminder_user st gid rid u).1 gid rid u)
        gid rid = some r := by
  have hadd := add_reminder_user_fresh st gid rid u l r hr hul hu
  have hrid : (r.id == rid) = true := by
    have h := List.find?_some hr
    simpa using h
  have hne2 : l ++ [u] ≠ [] := by simp
  have hget : get_reminder (setUserlist st gid rid (natsJoin (l ++ [u]))) gid rid
      = some { r with userlist := natsJoin (l ++ [u]) } := by
    rw [get_reminder_setUserlist, hr, Option.map_some']
    show some (if (r.id == rid) = true
        then { r with userlist := natsJoin (l ++ [u]) } else r) = _
    rw [if_pos hrid]
  refine ⟨by rw [hadd], ?_, ?_, ?_, ?_⟩
  · rw [hadd]
    exact hget
  · rw [splitOnChar_natsJoin _ hne2, count_map_natToStr, List.count_append,
      List.count_eq_zero.mpr hu, List.count_cons_self, List.count_nil]
  · rw [hadd]
    show add_reminder_user (setUserlist st gid rid (natsJoin (l ++ [u]))) gid rid u
        = (setUserlist st gid rid (natsJoin (l ++ [u])), false)
    simp only [add_reminder_user, hget]
    have h1 : ¬ ({ r with userlist := natsJoin (l ++ [u]) } : Reminder).userlist
        = [] := by
      show ¬ natsJoin (l ++ [u]) = []
      exact natsJoin_ne_nil _ hne2
    have h2 : ¬ (natToStr u ∉ splitOnChar ','
        ({ r with userlist := natsJoin (l ++ [u]) } : Reminder).userlist) := by
      show ¬ (natToStr u ∉ splitOnChar ',' (natsJoin (l ++ [u])))
      rw [splitOnChar_natsJoin _ hne2]
      intro hc
      exact hc (List.mem_map.mpr ⟨u, by simp, rfl⟩)
    rw [if_neg h1, if_neg h2]
  · rw [hadd]
    show get_reminder
        (remove_reminder_user (setUserlist st gid rid (natsJoin (l ++ [u]))) gid rid u)
        gid rid = some r
    have h1 : ¬ ({ r with userlist := natsJoin (l ++ [u]) } : Reminder).userlist
        = [] := by
      show ¬ natsJoin (l ++ [u]) = []
      exact natsJoin_ne_nil _ hne2
    have hulist : ((splitOnChar ','
        ({ r with userlist := natsJoin (l ++ [u]) } : Reminder).userlist).filter
          (fun s => !s.isEmpty)).map strToNat = l ++ [u] := by
      show ((splitOnChar ',' (natsJoin (l ++ [u]))).filter
          (fun s => !s.isEmpty)).map strToNat = l ++ [u]
      rw [splitOnChar_natsJoin _ hne2, filter_isEmpty_map_natToStr,
        map_strToNat_natToStr]
    have hrem : remove_reminder_user
          (setUserlist st gid rid (natsJoin (l ++ [u]))) gid rid u
        = setUserlist (setUserlist st gid rid (natsJoin (l ++ [u]))) gid rid
            (natsJoin l) := by
      simp only [remove_reminder_user, hget]
      rw [if_neg h1, hulist, if_pos (by simp : u ∈ l ++ [u]),
        erase_append_self l u hu]
      rfl
    rw [hrem, get_reminder_setUserlist, hget, Option.map_some']
    show some (if (({ r with userlist := natsJoin (l ++ [u]) } : Reminder).id
          == rid) = true
        then { ({ r with userlist := natsJoin (l ++ [u]) } : Reminder) with
            userlist := natsJoin l }
        else { r with userlist := natsJoin (l ++ [u]) }) = some r
    rw [if_pos (show (({ r with userlist := natsJoin (l ++ [u]) } : Reminder).id
        == rid) = true from hrid)]
    obtain ⟨i0, c0, t0, ch0, a0, u0⟩ := r
    rw [show ({ ({ (⟨i0, c0, t0, ch0, a0, u0⟩ : Reminder) with
        userlist := natsJoin (l ++ [u]) } : Reminder) with
        userlist := natsJoin l } : Reminder)
      = ⟨i0, c0, t0, ch0, a0, natsJoin l⟩ from rfl, ← hul]

/-- One reminder with serialised user list `[5]`, for the C9 witness. -/
def c9Rem : Reminder := ⟨1, "m", 50, 10, 42, ['5']⟩

/-- State holding `c9Rem` for guild 1, cache in sync. -/
def c9State : EventsState := ⟨[(1, [c9Rem])], [(1, [c9Rem])]⟩

/-- C9 witness: subscribe user 7 to the reminder whose list holds user 5,
then add again, then unsubscribe. -/
theorem C9_userlist_roundtrip_witness :
    (add_reminder_user c9State 1 1 7).2 = true ∧
    get_reminder (add_reminder_user c9State 1 1 7).1 1 1
      = some { c9Rem with userlist := natsJoin ([5] ++ [7]) } ∧
    (splitOnChar ',' (natsJoin ([5] ++ [7]))).count (natToStr 7) = 1 ∧
    add_reminder_user (add_reminder_user c9State 1 1 7).1 1 1 7
      = ((add_reminder_user c9State 1 1 7).1, false) ∧
    get_reminder (remove_reminder_user (add_reminder_user c9State 1 1 7).1 1 1 7)
        1 1 = some c9Rem :=
  C9_userlist_roundtrip c9State 1 1 7 [5] c9Rem (by decide) (by decide)
    (by decide)

/-- C10: `get_zodiac_sign` returns a sign for every calendar date with
month 1..12 and day 1..31; the fall-through `None` branch is unreachable
because `date_number` never exceeds the final threshold 1231. -/
theorem C10_zodiac_total (m d : Nat) (h1 : 1 ≤ m) (h2 : m ≤ 12)
    (h3 : 1 ≤ d) (h4 : d ≤ 31) :
    (get_zodiac_sign m d).isSome = true := by
  interval_cases m <;> interval_cases d <;> decide

/-- C10 witness. -/
theorem C10_zodiac_total_witness : (get_zodiac_sign 7 14).isSome = true :=
  C10_zodiac_total 7 14 (by decide) (by decide) (by decide) (by decide)

end Neron
